import Mathlib

/-!
Verification development for the voxel graph runtime
(`src/generators/graph/voxel_graph_runtime.h`) and the string-name
singleton (`src/unnamed/part_000`).

Machine floats are modelled by rationals, raw pointers by `Option Nat`
(`none` is the null pointer), byte streams by `List Nat`, and a fatal
`CRASH_COND` abort by an `Option`-valued result whose `none` case is the
abort.  Functions whose bodies live in the repository's `.cpp` files
(absent from `src/`) are modelled from the specification; each such
definition says so in its doc comment.
-/

namespace VoxelGraphRuntime

/-- Closed numeric range, as in `src/util/math/interval.h` (referenced by
the header); machine floats are modelled by rationals. -/
structure Interval where
  lo : ℚ
  hi : ℚ
deriving DecidableEq

/-- Membership of a value in an interval. -/
def Interval.memv (x : ℚ) (iv : Interval) : Prop :=
  iv.lo ≤ x ∧ x ≤ iv.hi

instance instDecidableMemv (x : ℚ) (iv : Interval) : Decidable (Interval.memv x iv) :=
  inferInstanceAs (Decidable (iv.lo ≤ x ∧ x ≤ iv.hi))

/-- `VoxelGraphRuntime::Buffer` (header lines 21-39).  The `data` pointer
is abstracted to an allocation identifier; `none` is the null pointer. -/
structure Buffer where
  data : Option Nat := none
  size : Nat := 0
  capacity : Nat := 0
  constant_value : ℚ := 0
  is_constant : Bool := false
  is_binding : Bool := false
  local_users_count : Nat := 0
deriving DecidableEq

/-- `VoxelGraphRuntime::State` (header lines 43-89). -/
structure State where
  ranges : List Interval := []
  buffers : List Buffer := []
  execution_map : List Nat := []
  debug_execution_map : List Int := []
  execution_map_xzy_start_index : Nat := 0
  buffer_size : Nat := 0
  buffer_capacity : Nat := 0
deriving DecidableEq

/-- `State::get_buffer` (header lines 45-49): `CRASH_COND(address >= buffers.size())`
then `return buffers[address]`.  The crash is the `none` result. -/
def State.get_buffer (s : State) (address : Nat) : Option Buffer :=
  if s.buffers.length ≤ address then none else s.buffers.get? address

/-- `State::get_range` (header lines 51-55): `CRASH_COND(address >= buffers.size())`
then `return ranges[address]`.  The outer `none` is the crash; the inner
`Option` records that the read of `ranges[address]` itself may be out of
bounds (undefined behaviour) since the guard tests `buffers.size()`. -/
def State.get_range (s : State) (address : Nat) : Option (Option Interval) :=
  if s.buffers.length ≤ address then none else some (s.ranges.get? address)

/-- `State::clear` (header lines 57-68): zeroes the sizes, frees the data
of every non-binding buffer holding a non-null pointer, then empties the
buffer and range lists.  The second component is the list of freed
pointers, in buffer order. -/
def State.clear (s : State) : State × List Nat :=
  ({ s with
      buffer_size := 0
      buffer_capacity := 0
      buffers := []
      ranges := [] },
    s.buffers.filterMap (fun b => if b.is_binding then none else b.data))

/-- `VoxelGraphRuntime::HeapResource` (header lines 126-129): a raw
pointer and a deleter function pointer, either of which may be null. -/
structure HeapResource where
  ptr : Option Nat := none
  deleter : Option Nat := none
deriving DecidableEq

/-- `VoxelGraphRuntime::CompilationResult` (header lines 15-19). -/
structure CompilationResult where
  success : Bool := false
  node_id : Int := -1
  message : String := ""
deriving DecidableEq

/-- `VoxelGraphRuntime::BufferSpec` (header lines 293-304). -/
structure BufferSpec where
  address : Nat := 0
  users_count : Nat := 0
  constant_value : ℚ := 0
  is_constant : Bool := false
  is_binding : Bool := false
deriving DecidableEq

/-- `DependencyGraph::Node` (header lines 307-313). -/
structure DependencyGraphNode where
  first_dependency : Nat := 0
  end_dependency : Nat := 0
  op_address : Nat := 0
  is_output : Bool := false
  debug_node_id : Int := -1
deriving DecidableEq

/-- `VoxelGraphRuntime::DependencyGraph` (header lines 306-324). -/
structure DependencyGraph where
  dependencies : List Nat := []
  nodes : List DependencyGraphNode := []
deriving DecidableEq

/-- `DependencyGraph::clear` (header lines 320-323). -/
def DependencyGraph.clear (g : DependencyGraph) : DependencyGraph :=
  { g with dependencies := [], nodes := [] }

/-- `VoxelGraphRuntime::Program` (header lines 328-414).  Reference-counted
resources and locked images are abstracted to identifier lists; the
output-port address map to an association list. -/
structure Program where
  operations : List Nat := []
  dependency_graph : DependencyGraph := {}
  default_execution_map : List Nat := []
  heap_resources : List HeapResource := []
  ref_resources : List Nat := []
  buffer_specs : List BufferSpec := []
  xzy_start_op_address : Nat := 0
  xzy_start_execution_map_index : Nat := 0
  x_input_address : Int := -1
  y_input_address : Int := -1
  z_input_address : Int := -1
  sdf_output_address : Int := -1
  sdf_output_node_index : Int := -1
  buffer_count : Nat := 0
  output_port_addresses : List ((Nat × Nat) × Nat) := []
  compilation_result : CompilationResult := {}
  locked_images : List Nat := []
deriving DecidableEq

/-- `VoxelGraphRuntime::has_output` (header lines 120-122):
`_program.sdf_output_address != -1`. -/
def has_output (p : Program) : Bool :=
  p.sdf_output_address != -1

/-- The field assignments performed by `Program::clear` (header lines
386-410): every compiled artifact is reset, the input/output addresses
become `-1`, resources are dropped and images unlocked (the
`unlock_images` body is not under `src/`; per the spec it releases all
held image locks, so the lock list becomes empty). -/
def Program.resetFields (p : Program) : Program :=
  { p with
      operations := []
      buffer_specs := []
      xzy_start_execution_map_index := 0
      xzy_start_op_address := 0
      default_execution_map := []
      output_port_addresses := []
      dependency_graph := p.dependency_graph.clear
      sdf_output_address := -1
      x_input_address := -1
      y_input_address := -1
      z_input_address := -1
      sdf_output_node_index := -1
      compilation_result := {}
      heap_resources := []
      locked_images := []
      ref_resources := []
      buffer_count := 0 }

/-- The deleter loop of `Program::clear` (header lines 400-405): for each
heap resource, `CRASH_COND` on a null deleter or null pointer, then invoke
the deleter on the pointer.  Returns the trace of (deleter, pointer)
invocations in registration order, or `none` if a crash occurred. -/
def traceHeap : List HeapResource → Option (List (Nat × Nat))
  | [] => some []
  | r :: rest =>
    match r.deleter, r.ptr with
    | some d, some q => (traceHeap rest).map (fun t => (d, q) :: t)
    | _, _ => none

/-- `Program::clear` (header lines 386-410): runs the deleter loop over
the registered heap resources and resets every field.  `none` is the
fatal `CRASH_COND` abort; otherwise the result carries the cleared
program and the trace of deleter invocations. -/
def Program.clear (p : Program) : Option (Program × List (Nat × Nat)) :=
  (traceHeap p.heap_resources).map (fun t => (p.resetFields, t))

/-- `VoxelGraphRuntime::CompileContext` (header lines 131-191).  Variants
in the parameter list are abstracted to identifiers; `offset` is the
program size recorded at construction. -/
structure CompileContext where
  node_id : Int := -1
  offset : Nat := 0
  program : List Nat := []
  heap_resources : List HeapResource := []
  params : List Nat := []
deriving DecidableEq

/-- The `CompileContext` constructor (header lines 133-140): records the
current end of the program byte stream as `_offset`. -/
def mkCompileContext (node_id : Int) (program : List Nat)
    (heap_resources : List HeapResource) (params : List Nat) : CompileContext :=
  { node_id := node_id
    offset := program.length
    program := program
    heap_resources := heap_resources
    params := params }

/-- `CompileContext::get_param` (header lines 142-145):
`CRASH_COND(i > _params.size())` then `return _params[i]`.  The outer
`none` is the crash; the inner `Option` is the element read, which is
`none` exactly when the read goes past the end of the list. -/
def CompileContext.get_param (c : CompileContext) (i : Nat) : Option (Option Nat) :=
  if c.params.length < i then none else some (c.params.get? i)

/-- `CompileContext::set_params` (header lines 147-155):
`CRASH_COND(_offset != _program.size())`, then grow the program stream by
the parameter blob written at `_offset`.  The blob is the byte encoding
of the `T` argument (so it is nonempty, as `sizeof(T) >= 1`). -/
def CompileContext.set_params (c : CompileContext) (blob : List Nat) : Option CompileContext :=
  if c.offset ≠ c.program.length then none
  else some { c with program := c.program ++ blob }

/-- `CompileContext::add_memdelete_cleanup` (header lines 157-168):
registers a heap resource whose pointer is the given (non-null) pointer
and whose deleter is the `memdelete` thunk for its type. -/
def CompileContext.add_memdelete_cleanup (c : CompileContext) (ptr deleter : Nat) :
    CompileContext :=
  { c with heap_resources := c.heap_resources ++ [{ ptr := some ptr, deleter := some deleter }] }

/-- Modelled from the spec: one node of the input graph as compilation
sees it — its user-facing id and whether its registered compile routine
reports an error (the operation catalog and `_compile` body are not under
`src/`; spec section 4.1). -/
structure GraphNode where
  id : Int := 0
  compile_error : Option String := none
deriving DecidableEq

/-- Modelled from the spec: the first per-node compile error encountered
when walking the nodes in compilation order (spec sections 4.1 and 7). -/
def findFirstError : List GraphNode → Option (Int × String)
  | [] => none
  | n :: rest =>
    match n.compile_error with
    | some m => some (n.id, m)
    | none => findFirstError rest

/-- Modelled from the spec: `VoxelGraphRuntime::compile` (declared at
header line 95; body not under `src/`).  Per spec sections 4.1 and 7, any
per-node compile error aborts compilation, leaves the Program cleared and
returns a structured result carrying the failing node id and message; on
success the program is left as built with a success result recorded. -/
def compile (nodes : List GraphNode) (p : Program) : CompilationResult × Program :=
  match findFirstError nodes with
  | some (nid, msg) =>
    let res : CompilationResult := { success := false, node_id := nid, message := msg }
    (res, { p.resetFields with compilation_result := res })
  | none =>
    let res : CompilationResult := { success := true, node_id := -1, message := "" }
    (res, { p with compilation_result := res })

/-- Resize a list to length `n`, keeping the existing entries and padding
with `dflt`, as `std::vector::resize` does. -/
def resizeList {α : Type} (l : List α) (n : Nat) (dflt : α) : List α :=
  l.take n ++ List.replicate (n - l.length) dflt

/-- Modelled from the spec: the buffer spec governing a given address, as
`prepare_state` consults it (spec section 4.2; the `prepare_state` body
is not under `src/`).  Addresses without an explicit spec get a plain
non-constant, non-binding buffer. -/
def findSpec (p : Program) (a : Nat) : BufferSpec :=
  match p.buffer_specs.find? (fun sp => sp.address == a) with
  | some sp => sp
  | none => { address := a }

/-- Modelled from the spec: a freshly allocated working buffer of
capacity `n` (spec section 4.2). -/
def freshBuffer (n : Nat) (spec : BufferSpec) : Buffer :=
  { data := some 0
    size := n
    capacity := n
    constant_value := 0
    is_constant := false
    is_binding := false
    local_users_count := spec.users_count }

/-- Modelled from the spec: how `prepare_state` shapes the buffer at one
address (spec section 4.2).  Constant buffers get no array (the constant
value is read directly); binding buffers get no array (the caller maps
memory in per call); other buffers keep their existing allocation when
its capacity suffices and are reallocated otherwise. -/
def prepBuffer (n : Nat) (spec : BufferSpec) (old : Option Buffer) : Buffer :=
  if spec.is_constant then
    { data := none
      size := n
      capacity := 0
      constant_value := spec.constant_value
      is_constant := true
      is_binding := spec.is_binding
      local_users_count := spec.users_count }
  else if spec.is_binding then
    { data := none
      size := n
      capacity := 0
      constant_value := 0
      is_constant := false
      is_binding := true
      local_users_count := spec.users_count }
  else
    match old with
    | some b =>
      match b.data with
      | some d =>
        if n ≤ b.capacity then
          { data := some d
            size := n
            capacity := b.capacity
            constant_value := 0
            is_constant := false
            is_binding := false
            local_users_count := spec.users_count }
        else freshBuffer n spec
      | none => freshBuffer n spec
    | none => freshBuffer n spec

/-- Modelled from the spec: `VoxelGraphRuntime::prepare_state` (declared
at header line 100; body not under `src/`).  Per spec sections 3 and
4.2 it (re)allocates one buffer per address up to the Program's buffer
count, sized to `n` with capacity at least `n`, resizes the interval
list to match, and resets the active execution order to the Program's
default. -/
def prepare_state (p : Program) (s : State) (n : Nat) : State :=
  { s with
      buffers := (List.range p.buffer_count).map
        (fun a => prepBuffer n (findSpec p a) (s.buffers.get? a))
      ranges := resizeList s.ranges p.buffer_count { lo := 0, hi := 0 }
      execution_map := p.default_execution_map
      debug_execution_map := []
      execution_map_xzy_start_index := p.xzy_start_execution_map_index
      buffer_size := n
      buffer_capacity := max s.buffer_capacity n }

namespace GraphModel

/-- Modelled from the spec: one compiled instruction together with the
routines its operation kind registered in the external catalog — its
input buffer addresses, its output buffer address, its execute routine
and its range-analysis routine (spec sections 3 and 6; the instruction
decoding and dispatch bodies are not under `src/`). -/
structure Op where
  inputs : List Nat
  output : Nat
  eval : List ℚ → ℚ
  rangeF : List Interval → Interval

/-- Modelled from the spec: a compiled program as the execution and
range-analysis engines consume it — the instruction list in its default
execution order plus the reserved X/Y/Z input addresses and the SDF
output address (spec section 3). -/
structure Prog where
  ops : List Op
  x_input_address : Nat
  y_input_address : Nat
  z_input_address : Nat
  sdf_output_address : Nat

/-- A queried position, with float coordinates modelled by rationals. -/
structure Vector3 where
  x : ℚ
  y : ℚ
  z : ℚ
deriving DecidableEq

/-- An integer box corner (`Vector3i`). -/
structure Vector3i where
  x : ℤ
  y : ℤ
  z : ℤ
deriving DecidableEq

/-- Point update of an address-indexed store. -/
def update {α : Type} (v : Nat → α) (o : Nat) (x : α) : Nat → α :=
  fun a => if a = o then x else v a

/-- Modelled from the spec: the initial value store of `generate_single`,
binding the X/Y/Z buffers to the queried position (spec section 4.3);
all other addresses hold unwritten memory, modelled as 0. -/
def initVals (p : Prog) (pos : Vector3) : Nat → ℚ :=
  fun a =>
    if a = p.x_input_address then pos.x
    else if a = p.y_input_address then pos.y
    else if a = p.z_input_address then pos.z
    else 0

/-- Modelled from the spec: the initial interval store of
`analyze_range`, deriving the X/Y/Z intervals from the queried
axis-aligned box (spec section 4.4); unwritten addresses hold [0, 0]. -/
def initRanges (p : Prog) (bmin bmax : Vector3i) : Nat → Interval :=
  fun a =>
    if a = p.x_input_address then { lo := (bmin.x : ℚ), hi := (bmax.x : ℚ) }
    else if a = p.y_input_address then { lo := (bmin.y : ℚ), hi := (bmax.y : ℚ) }
    else if a = p.z_input_address then { lo := (bmin.z : ℚ), hi := (bmax.z : ℚ) }
    else { lo := 0, hi := 0 }

/-- Modelled from the spec: the execution engine's replay of the
instruction stream — each instruction reads its input buffers and writes
its output buffer via its registered execute routine (spec section 4.3). -/
def runOps : List Op → (Nat → ℚ) → Nat → ℚ
  | [], v => v
  | op :: rest, v => runOps rest (update v op.output (op.eval (op.inputs.map v)))

/-- Modelled from the spec: the range-analysis replay of the instruction
stream over intervals (spec section 4.4). -/
def runRanges : List Op → (Nat → Interval) → Nat → Interval
  | [], r => r
  | op :: rest, r => runRanges rest (update r op.output (op.rangeF (op.inputs.map r)))

/-- Modelled from the spec: `generate_single` with the default (full)
execution order (header line 102; body not under `src/`): bind X/Y/Z to
the position, run every instruction, read the SDF output buffer. -/
def generate_single (p : Prog) (pos : Vector3) : ℚ :=
  runOps p.ops (initVals p pos) p.sdf_output_address

/-- Modelled from the spec: `analyze_range` (header line 110; body not
under `src/`): derive X/Y/Z intervals from the box, run every
instruction's range routine, read the interval at the SDF output. -/
def analyze_range (p : Prog) (bmin bmax : Vector3i) : Interval :=
  runRanges p.ops (initRanges p bmin bmax) p.sdf_output_address

/-- The set of addresses already written (or bound as inputs) after a
list of instructions has run, starting from the defined set `d`. -/
def definedAfter (d : Finset Nat) : List Op → Finset Nat
  | [] => d
  | op :: rest => definedAfter (insert op.output d) rest

/-- Dependency-respecting instruction order, as spec section 3 requires
of compiled programs: every instruction reads only addresses that were
bound as inputs or written by an earlier instruction. -/
def wfOps (d : Finset Nat) : List Op → Prop
  | [] => True
  | op :: rest => (∀ a ∈ op.inputs, a ∈ d) ∧ wfOps (insert op.output d) rest

def wfOpsDec (d : Finset Nat) : (ops : List Op) → Decidable (wfOps d ops)
  | [] => Decidable.isTrue trivial
  | op :: rest =>
    @instDecidableAnd _ _ (List.decidableBAll _ op.inputs) (wfOpsDec (insert op.output d) rest)

instance instDecidableWfOps (d : Finset Nat) (ops : List Op) : Decidable (wfOps d ops) :=
  wfOpsDec d ops

/-- A well-formed compiled program: its instruction order respects
dependencies starting from the X/Y/Z input addresses, and its SDF output
address is bound or written by the end. -/
def wfProg (p : Prog) : Prop :=
  wfOps {p.x_input_address, p.y_input_address, p.z_input_address} p.ops ∧
    p.sdf_output_address ∈
      definedAfter {p.x_input_address, p.y_input_address, p.z_input_address} p.ops

instance instDecidableWfProg (p : Prog) : Decidable (wfProg p) :=
  inferInstanceAs (Decidable (_ ∧ _))

/-- Soundness of one registered range routine, as spec section 4.4
states it: for inputs anywhere within the given intervals, the value the
execute routine produces lies within the interval the range routine
returns. -/
def OpSound (op : Op) : Prop :=
  ∀ (v : Nat → ℚ) (r : Nat → Interval),
    (∀ a ∈ op.inputs, Interval.memv (v a) (r a)) →
    Interval.memv (op.eval (op.inputs.map v)) (op.rangeF (op.inputs.map r))

/-- Membership of a position in the axis-aligned box `[bmin, bmax]`
queried by `analyze_range`. -/
def inBox (pos : Vector3) (bmin bmax : Vector3i) : Prop :=
  ((bmin.x : ℚ) ≤ pos.x ∧ pos.x ≤ (bmax.x : ℚ)) ∧
    ((bmin.y : ℚ) ≤ pos.y ∧ pos.y ≤ (bmax.y : ℚ)) ∧
    ((bmin.z : ℚ) ≤ pos.z ∧ pos.z ≤ (bmax.z : ℚ))

instance instDecidableInBox (pos : Vector3) (bmin bmax : Vector3i) :
    Decidable (inBox pos bmin bmax) :=
  inferInstanceAs (Decidable (_ ∧ _))

/-- Modelled from the spec: the range-analysis pass annotating each
instruction with the output interval its range routine computed, in
execution order (spec section 4.4).  These per-instruction intervals
are what the execution-map builder consults. -/
def annotate : List Op → (Nat → Interval) → List (Op × Interval)
  | [], _ => []
  | op :: rest, r =>
    let iv := op.rangeF (op.inputs.map r)
    (op, iv) :: annotate rest (update r op.output iv)

/-- Modelled from the spec: the backward walk of
`generate_execution_map` (declared at header lines 287-289; body not
under `src/`).  Starting from the addresses still needed after the
stream (the SDF output), an instruction is kept only if its output is
still needed and was not proven constant over the analyzed region; a
kept instruction makes its inputs needed, and an excluded one lets its
inputs' consumer counts drop (spec section 4.4). -/
def liveBefore : List (Op × Interval) → Finset Nat → Finset Nat
  | [], target => target
  | (op, iv) :: rest, target =>
    let L := liveBefore rest target
    if op.output ∈ L then
      if iv.lo = iv.hi then L.erase op.output
      else L.erase op.output ∪ op.inputs.toFinset
    else L

/-- Modelled from the spec: execution with the optimized execution map
enabled (spec sections 4.3-4.4).  Instructions on the map run normally;
an instruction pruned because range analysis proved its output constant
leaves that constant in its output buffer (readers simply observe the
stored constant); an instruction pruned because no remaining consumer
needs its output is skipped entirely. -/
def runMapped : List (Op × Interval) → Finset Nat → (Nat → ℚ) → Nat → ℚ
  | [], _, v => v
  | (op, iv) :: rest, target, v =>
    let L := liveBefore rest target
    if op.output ∈ L then
      if iv.lo = iv.hi then runMapped rest target (update v op.output iv.lo)
      else runMapped rest target (update v op.output (op.eval (op.inputs.map v)))
    else runMapped rest target v

/-- Modelled from the spec: `generate_single` with the execution map
produced by `generate_optimized_execution_map` after `analyze_range`
over the box `[bmin, bmax]` (header lines 102 and 112-118; bodies not
under `src/`). -/
def generate_single_mapped (p : Prog) (bmin bmax : Vector3i) (pos : Vector3) : ℚ :=
  runMapped (annotate p.ops (initRanges p bmin bmax)) {p.sdf_output_address}
    (initVals p pos) p.sdf_output_address

/-- An addition instruction over addresses 0 and 1 writing address 3,
with the catalog's interval-addition range routine; used to exercise the
theorems on a concrete program. -/
def addOp : Op :=
  { inputs := [0, 1]
    output := 3
    eval := fun l => l.getD 0 0 + l.getD 1 0
    rangeF := fun l =>
      { lo := (l.getD 0 { lo := 0, hi := 0 }).lo + (l.getD 1 { lo := 0, hi := 0 }).lo
        hi := (l.getD 0 { lo := 0, hi := 0 }).hi + (l.getD 1 { lo := 0, hi := 0 }).hi } }

/-- A concrete compiled program computing `output = X + Y` (spec
section 8's example): inputs at addresses 0/1/2, output at address 3. -/
def demoProg : Prog :=
  { ops := [addOp]
    x_input_address := 0
    y_input_address := 1
    z_input_address := 2
    sdf_output_address := 3 }

end GraphModel

/-- A concrete state with one owned buffer, one binding buffer and
matching ranges, used to exercise the `State` theorems. -/
def demoState : State :=
  { ranges := [{ lo := 0, hi := 1 }, { lo := 2, hi := 3 }]
    buffers :=
      [{ data := some 5, size := 4, capacity := 4 },
       { data := some 9, size := 4, capacity := 4, is_binding := true }]
    buffer_size := 4
    buffer_capacity := 4 }

end VoxelGraphRuntime

/-- `VoxelStringNames` (from `src/unnamed/part_000`): interned string
names created by the constructor. -/
structure VoxelStringNames where
  emerge_block : String
  immerge_block : String
  u_transition_mask : String
deriving DecidableEq

/-- The `VoxelStringNames` constructor (`src/unnamed/part_000` lines
16-22): interns the fixed name strings. -/
def mkVoxelStringNames : VoxelStringNames :=
  { emerge_block := "emerge_block"
    immerge_block := "immerge_block"
    u_transition_mask := "u_transition_mask" }

/-- `VoxelStringNames::create_singleton` (`src/unnamed/part_000`):
`CRASH_COND(g_singleton != nullptr)` then allocate the instance.  The
argument is the global pointer before the call, the result the global
pointer after it (`none` for the whole result is the crash). -/
def VoxelStringNames.create_singleton (g : Option VoxelStringNames) :
    Option (Option VoxelStringNames) :=
  match g with
  | some _ => none
  | none => some (some mkVoxelStringNames)

/-- `VoxelStringNames::destroy_singleton` (`src/unnamed/part_000`):
`CRASH_COND(g_singleton == nullptr)`, free the instance, null the global
pointer. -/
def VoxelStringNames.destroy_singleton (g : Option VoxelStringNames) :
    Option (Option VoxelStringNames) :=
  match g with
  | none => none
  | some _ => some none

namespace VoxelGraphRuntime

/-- C4: for every State and buffer address, `get_buffer` and `get_range`
abort (fatally) exactly when the address is at least the number of
buffers held by the State, and otherwise return the buffer, respectively
the interval, stored at that address (the interval list having one entry
per buffer, as `prepare_state` lays it out). -/
theorem get_buffer_get_range_bounds (s : State) (address : Nat)
    (hlen : s.ranges.length = s.buffers.length) :
    (s.buffers.length ≤ address →
      s.get_buffer address = none ∧ s.get_range address = none) ∧
    (address < s.buffers.length →
      ∃ b iv, s.buffers.get? address = some b ∧ s.ranges.get? address = some iv ∧
        s.get_buffer address = some b ∧ s.get_range address = some (some iv)) := by
  constructor
  · intro h
    exact ⟨by simp [State.get_buffer, h], by simp [State.get_range, h]⟩
  · intro h
    have h2 : address < s.ranges.length := by omega
    refine ⟨s.buffers.get ⟨address, h⟩, s.ranges.get ⟨address, h2⟩,
      List.get?_eq_get h, List.get?_eq_get h2, ?_, ?_⟩
    · unfold State.get_buffer
      rw [if_neg (by omega)]
      exact List.get?_eq_get h
    · unfold State.get_range
      rw [if_neg (by omega), List.get?_eq_get h2]

theorem get_buffer_get_range_bounds_witness :
    (demoState.get_buffer 2 = none) ∧
    (∃ b iv, demoState.buffers.get? 0 = some b ∧ demoState.ranges.get? 0 = some iv ∧
      demoState.get_buffer 0 = some b ∧ demoState.get_range 0 = some (some iv)) :=
  ⟨((get_buffer_get_range_bounds demoState 2 rfl).1 (by decide)).1,
    (get_buffer_get_range_bounds demoState 0 rfl).2 (by decide)⟩

/-- C5: on a freshly constructed `CompileContext` (whose recorded offset
is the current end of the program stream), the first `set_params` call
appends the parameter blob at the recorded offset; since the blob is
nonempty, a second call on the same context finds the recorded offset no
longer equal to the end of the stream and aborts fatally. -/
theorem set_params_once (c : CompileContext) (blob blob2 : List Nat)
    (hfresh : c.offset = c.program.length) (hsz : blob ≠ []) :
    c.set_params blob = some { c with program := c.program ++ blob } ∧
    CompileContext.set_params { c with program := c.program ++ blob } blob2 = none := by
  have hlen : 0 < blob.length := List.length_pos.mpr hsz
  unfold CompileContext.set_params
  constructor
  · rw [if_neg (by simp [hfresh])]
  · have hne : ({ c with program := c.program ++ blob } : CompileContext).offset ≠
        ({ c with program := c.program ++ blob } : CompileContext).program.length := by
      show c.offset ≠ (c.program ++ blob).length
      rw [hfresh, List.length_append]
      omega
    rw [if_pos hne]

theorem set_params_once_witness :
    CompileContext.set_params (mkCompileContext 1 [7] [] [4]) [9] =
      some { mkCompileContext 1 [7] [] [4] with program := [7, 9] } ∧
    CompileContext.set_params { mkCompileContext 1 [7] [] [4] with program := [7, 9] } [2] =
      none :=
  set_params_once (mkCompileContext 1 [7] [] [4]) [9] [2] rfl (by decide)

/-- C7: `State::clear` frees exactly the data arrays of the non-binding
buffers that hold one (every freed pointer comes from a non-binding
buffer, and every non-binding buffer's non-null pointer is freed); it
never frees a binding buffer's caller-owned memory; afterwards the State
holds no buffers or ranges and its buffer size and capacity are zero. -/
theorem state_clear_spec (s : State) :
    (∀ q ∈ (s.clear).2, ∃ b ∈ s.buffers, b.data = some q ∧ b.is_binding = false) ∧
    (∀ b ∈ s.buffers, b.is_binding = false → ∀ q, b.data = some q → q ∈ (s.clear).2) ∧
    (s.clear).1.buffers = [] ∧ (s.clear).1.ranges = [] ∧
    (s.clear).1.buffer_size = 0 ∧ (s.clear).1.buffer_capacity = 0 := by
  refine ⟨?_, ?_, rfl, rfl, rfl, rfl⟩
  · intro q hq
    simp only [State.clear, List.mem_filterMap] at hq
    obtain ⟨b, hb, hf⟩ := hq
    by_cases hbind : b.is_binding
    · simp [hbind] at hf
    · exact ⟨b, hb, by simpa [hbind] using hf, by simpa using hbind⟩
  · intro b hb hbind q hq
    simp only [State.clear, List.mem_filterMap]
    exact ⟨b, hb, by simp [hbind, hq]⟩

theorem state_clear_spec_witness :
    (demoState.clear).1.buffers = [] ∧ 5 ∈ (demoState.clear).2 :=
  ⟨(state_clear_spec demoState).2.2.1,
    (state_clear_spec demoState).2.1 { data := some 5, size := 4, capacity := 4 }
      (by simp [demoState]) rfl 5 rfl⟩

/-- C9 (code bug exhibit): `CompileContext::get_param` guards with
`CRASH_COND(i > _params.size())` rather than `>=`; on a node with an
empty parameter list, the call `get_param(0)` passes the guard (no
abort) and reads `_params[0]`, one element past the end of the list, so
the claimed abort for every out-of-range index does not happen at
`i = _params.size()`.  The result `some none` records exactly that: no
crash (outer `some`) and an out-of-bounds read (inner `none`). -/
theorem get_param_off_by_one :
    (mkCompileContext 0 [] [] []).params.length = 0 ∧
    (mkCompileContext 0 [] [] []).get_param 0 = some none :=
  ⟨rfl, rfl⟩

end VoxelGraphRuntime

/-- C10: at most one `VoxelStringNames` instance exists:
`create_singleton` aborts if the global pointer is non-null and
otherwise leaves it pointing at the new instance; `destroy_singleton`
aborts if the global pointer is null and otherwise frees the instance
and nulls the pointer; hence create followed by destroy restores the
initial null state. -/
theorem voxel_string_names_singleton_lifecycle :
    VoxelStringNames.create_singleton none = some (some mkVoxelStringNames) ∧
    (∀ g : VoxelStringNames, VoxelStringNames.create_singleton (some g) = none) ∧
    (∀ g : VoxelStringNames, VoxelStringNames.destroy_singleton (some g) = some none) ∧
    VoxelStringNames.destroy_singleton none = none ∧
    (VoxelStringNames.create_singleton none).bind VoxelStringNames.destroy_singleton =
      some none :=
  ⟨rfl, fun _ => rfl, fun _ => rfl, rfl, rfl⟩

namespace VoxelGraphRuntime

/-- C3: whenever a per-node compile error occurs, `compile` aborts with a
`CompilationResult` carrying the failing node's id and message, and the
resulting Program is cleared — in particular its SDF output address is
`-1`, so `has_output` is false — and its recorded compilation result
marks it as not to be executed. -/
theorem compile_error_clears (nodes : List GraphNode) (p : Program) (nid : Int) (msg : String)
    (h : findFirstError nodes = some (nid, msg)) :
    (compile nodes p).1.success = false ∧
    (compile nodes p).1.node_id = nid ∧
    (compile nodes p).1.message = msg ∧
    (compile nodes p).2.sdf_output_address = -1 ∧
    has_output (compile nodes p).2 = false ∧
    (compile nodes p).2.operations = [] ∧
    (compile nodes p).2.compilation_result.success = false := by
  simp [compile, h, has_output, Program.resetFields]

theorem compile_error_clears_witness :
    findFirstError [{ id := 7, compile_error := some "bad" }] = some (7, "bad") ∧
    (compile [{ id := 7, compile_error := some "bad" }] {}).1.node_id = 7 ∧
    has_output (compile [{ id := 7, compile_error := some "bad" }] {}).2 = false :=
  ⟨rfl,
    (compile_error_clears [{ id := 7, compile_error := some "bad" }] {} 7 "bad" rfl).2.1,
    (compile_error_clears [{ id := 7, compile_error := some "bad" }] {} 7 "bad" rfl).2.2.2.2.1⟩

/-- When every registered heap resource carries a non-null pointer and a
non-null deleter, the deleter loop of `Program::clear` produces exactly
one (deleter, pointer) invocation per resource, in registration order. -/
theorem traceHeap_eq_map (rs : List HeapResource)
    (h : ∀ r ∈ rs, r.ptr.isSome ∧ r.deleter.isSome) :
    traceHeap rs = some (rs.map (fun r => (r.deleter.getD 0, r.ptr.getD 0))) := by
  induction rs with
  | nil => rfl
  | cons r rest ih =>
    obtain ⟨hp, hd⟩ := h r (List.mem_cons_self r rest)
    obtain ⟨q, hq⟩ := Option.isSome_iff_exists.mp hp
    obtain ⟨d, hdv⟩ := Option.isSome_iff_exists.mp hd
    simp [traceHeap, hq, hdv, ih (fun x hx => h x (List.mem_cons_of_mem _ hx))]

theorem traceHeap_eq_map_witness :
    traceHeap [{ ptr := some 11, deleter := some 3 }] = some [(3, 11)] :=
  traceHeap_eq_map [{ ptr := some 11, deleter := some 3 }] (by decide)

/-- C6: `Program::clear` invokes each registered resource's (non-null)
deleter on its non-null pointer exactly once — the invocation trace has
one entry per resource, in registration order — drops the
reference-counted resources, unlocks the locked images, and empties the
resource list so that a subsequent `clear` releases nothing; and
registering a resource (`add_memdelete_cleanup`) only appends it,
releasing nothing before `clear`. -/
theorem program_clear_releases (p : Program)
    (h : ∀ r ∈ p.heap_resources, r.ptr.isSome ∧ r.deleter.isSome) :
    Program.clear p =
      some (p.resetFields, p.heap_resources.map (fun r => (r.deleter.getD 0, r.ptr.getD 0))) ∧
    p.resetFields.heap_resources = [] ∧
    p.resetFields.ref_resources = [] ∧
    p.resetFields.locked_images = [] ∧
    Program.clear p.resetFields = some (p.resetFields.resetFields, []) ∧
    (∀ (ptr deleter : Nat) (c : CompileContext),
      (c.add_memdelete_cleanup ptr deleter).heap_resources =
        c.heap_resources ++ [{ ptr := some ptr, deleter := some deleter }]) := by
  refine ⟨?_, rfl, rfl, rfl, rfl, fun _ _ _ => rfl⟩
  simp [Program.clear, traceHeap_eq_map p.heap_resources h]

theorem program_clear_releases_witness :
    Program.clear { heap_resources := [{ ptr := some 11, deleter := some 3 }] } =
      some (Program.resetFields { heap_resources := [{ ptr := some 11, deleter := some 3 }] },
        [(3, 11)]) :=
  (program_clear_releases { heap_resources := [{ ptr := some 11, deleter := some 3 }] }
    (by decide)).1

end VoxelGraphRuntime

namespace VoxelGraphRuntime

/-- Resizing to `n` always yields a list of length `n`. -/
theorem resizeList_length {α : Type} (l : List α) (n : Nat) (d : α) :
    (resizeList l n d).length = n := by
  simp [resizeList]
  omega

/-- Resizing an already-resized list is a no-op. -/
theorem resizeList_idem {α : Type} (l : List α) (n : Nat) (d : α) :
    resizeList (resizeList l n d) n d = resizeList l n d := by
  have hlen := resizeList_length l n d
  rw [resizeList, hlen, Nat.sub_self, List.replicate_zero, List.append_nil,
    List.take_of_length_le (le_of_eq hlen)]

/-- Re-preparing a buffer that `prepare_state` already shaped for size
`n` leaves it unchanged: constant and binding buffers are rebuilt
identically, and a working buffer's allocation already has sufficient
capacity, so it is kept. -/
theorem prepBuffer_idem (n : Nat) (spec : BufferSpec) (old : Option Buffer) :
    prepBuffer n spec (some (prepBuffer n spec old)) = prepBuffer n spec old := by
  unfold prepBuffer
  by_cases hc : spec.is_constant
  · simp [hc]
  · by_cases hb : spec.is_binding
    · simp [hc, hb]
    · simp only [hc, hb, Bool.false_eq_true, if_false]
      rcases old with _ | b
      · simp [freshBuffer]
      · rcases hd : b.data with _ | d
        · simp [hd, freshBuffer]
        · by_cases hcap : n ≤ b.capacity
          · simp [hd, hcap]
          · simp [hd, hcap, freshBuffer]

/-- C8: `prepare_state` is idempotent — calling it twice in a row with
the same Program and buffer size yields exactly the same State as
calling it once, so every subsequent `generate_single`, `generate_set`
or `analyze_range` call behaves identically. -/
theorem prepare_state_idem (p : Program) (s : State) (n : Nat) :
    prepare_state p (prepare_state p s n) n = prepare_state p s n := by
  have hcap : max (max s.buffer_capacity n) n = max s.buffer_capacity n := by omega
  simp [prepare_state, hcap, resizeList_idem]
  intro a ha
  simp [List.getElem?_range ha, prepBuffer_idem]

end VoxelGraphRuntime

namespace VoxelGraphRuntime

namespace GraphModel

/-- Invariant of the two replays: if the instruction order respects
dependencies and every registered range routine is sound, then after
running both passes from pointwise-compatible initial stores, the value
at every defined address lies within the interval computed for it. -/
theorem runOps_mem_runRanges (ops : List Op) (v : Nat → ℚ) (r : Nat → Interval)
    (d : Finset Nat) (hwf : wfOps d ops) (hs : ∀ op ∈ ops, OpSound op)
    (hinv : ∀ a ∈ d, Interval.memv (v a) (r a)) :
    ∀ a ∈ definedAfter d ops, Interval.memv (runOps ops v a) (runRanges ops r a) := by
  induction ops generalizing v r d with
  | nil => exact hinv
  | cons op rest ih =>
    obtain ⟨hin, hwf2⟩ := hwf
    have hmem : Interval.memv (op.eval (op.inputs.map v)) (op.rangeF (op.inputs.map r)) :=
      hs op (List.mem_cons_self _ _) v r (fun b hb => hinv b (hin b hb))
    simp only [definedAfter, runOps, runRanges]
    refine ih _ _ _ hwf2 (fun o ho => hs o (List.mem_cons_of_mem _ ho)) ?_
    intro a ha
    by_cases hao : a = op.output
    · subst hao
      simp only [update, if_pos rfl]
      exact hmem
    · simp only [update, if_neg hao]
      exact hinv a ((Finset.mem_insert.mp ha).resolve_left hao)

end GraphModel

end VoxelGraphRuntime

namespace VoxelGraphRuntime

namespace GraphModel

/-- For a position inside the queried box, the initial value store lies
pointwise within the initial interval store on the X/Y/Z addresses. -/
theorem initVals_mem_initRanges (p : Prog) (bmin bmax : Vector3i) (pos : Vector3)
    (hpos : inBox pos bmin bmax) :
    ∀ a ∈ ({p.x_input_address, p.y_input_address, p.z_input_address} : Finset Nat),
      Interval.memv (initVals p pos a) (initRanges p bmin bmax a) := by
  obtain ⟨hx, hy, hz⟩ := hpos
  intro a ha
  unfold initVals initRanges
  split_ifs with h1 h2 h3
  · exact hx
  · exact hy
  · exact hz
  · exfalso
    rcases Finset.mem_insert.mp ha with h | h
    · exact h1 h
    rcases Finset.mem_insert.mp h with h | h
    · exact h2 h
    · exact h3 (Finset.mem_singleton.mp h)

/-- C1: range-analysis soundness — for every queried axis-aligned box,
every well-formed compiled graph and every position inside the box,
provided each registered operation's range routine is a sound
over-approximation, the interval returned by `analyze_range` contains
the value `generate_single` produces at that position. -/
theorem analyze_range_sound (p : Prog) (bmin bmax : Vector3i) (pos : Vector3)
    (hwf : wfProg p) (hs : ∀ op ∈ p.ops, OpSound op) (hpos : inBox pos bmin bmax) :
    Interval.memv (generate_single p pos) (analyze_range p bmin bmax) :=
  runOps_mem_runRanges p.ops (initVals p pos) (initRanges p bmin bmax) _ hwf.1 hs
    (initVals_mem_initRanges p bmin bmax pos hpos) p.sdf_output_address hwf.2

/-- The interval-addition range routine of `addOp` is a sound
over-approximation of its addition execute routine. -/
theorem addOp_sound : OpSound addOp := by
  intro v r h
  have h0 := h 0 (by simp [addOp])
  have h1 := h 1 (by simp [addOp])
  obtain ⟨h0l, h0r⟩ := h0
  obtain ⟨h1l, h1r⟩ := h1
  exact ⟨add_le_add h0l h1l, add_le_add h0r h1r⟩

/-- Every operation of the demo program has a sound range routine. -/
theorem demoProg_sound : ∀ op ∈ demoProg.ops, OpSound op := by
  intro op hop
  have h : op = addOp := by simpa [demoProg] using hop
  rw [h]
  exact addOp_sound

theorem analyze_range_sound_witness :
    wfProg demoProg ∧
    inBox { x := 2, y := 3, z := 0 } { x := 0, y := 0, z := 0 } { x := 4, y := 5, z := 6 } ∧
    Interval.memv (generate_single demoProg { x := 2, y := 3, z := 0 })
      (analyze_range demoProg { x := 0, y := 0, z := 0 } { x := 4, y := 5, z := 6 }) :=
  ⟨by decide, by decide,
    analyze_range_sound demoProg { x := 0, y := 0, z := 0 } { x := 4, y := 5, z := 6 }
      { x := 2, y := 3, z := 0 } (by decide) demoProg_sound (by decide)⟩

end GraphModel

end VoxelGraphRuntime

namespace VoxelGraphRuntime

namespace GraphModel

/-- Core equivalence: running the instruction stream under the optimized
execution map (constant-pruned instructions leave their analyzed
constant, dead instructions are skipped) agrees, on every address still
needed at the end, with the full default-order run — for any pruned-run
store that agrees with the full-run store on the addresses the map still
needs. -/
theorem runMapped_eq_runOps (ops : List Op) (v w : Nat → ℚ) (r : Nat → Interval)
    (d target : Finset Nat) (hwf : wfOps d ops) (hs : ∀ op ∈ ops, OpSound op)
    (hinv : ∀ a ∈ d, Interval.memv (v a) (r a))
    (hagree : ∀ a ∈ liveBefore (annotate ops r) target, w a = v a) :
    ∀ a ∈ target, runMapped (annotate ops r) target w a = runOps ops v a := by
  induction ops generalizing v w r d with
  | nil =>
    intro a ha
    exact hagree a ha
  | cons op rest ih =>
    obtain ⟨hin, hwf2⟩ := hwf
    have hsop := hs op (List.mem_cons_self _ _)
    have hs2 : ∀ o ∈ rest, OpSound o := fun o ho => hs o (List.mem_cons_of_mem _ ho)
    have hmem : Interval.memv (op.eval (op.inputs.map v)) (op.rangeF (op.inputs.map r)) :=
      hsop v r (fun b hb => hinv b (hin b hb))
    have hinv2 : ∀ a ∈ insert op.output d,
        Interval.memv (update v op.output (op.eval (op.inputs.map v)) a)
          (update r op.output (op.rangeF (op.inputs.map r)) a) := by
      intro a ha
      by_cases hao : a = op.output
      · subst hao
        simp only [update, if_pos rfl]
        exact hmem
      · simp only [update, if_neg hao]
        exact hinv a ((Finset.mem_insert.mp ha).resolve_left hao)
    simp only [annotate, runOps, runMapped]
    by_cases hoL : op.output ∈
        liveBefore (annotate rest (update r op.output (op.rangeF (op.inputs.map r)))) target
    · by_cases hconst : (op.rangeF (op.inputs.map r)).lo = (op.rangeF (op.inputs.map r)).hi
      · intro a ha
        rw [if_pos hoL, if_pos hconst]
        refine ih _ _ _ _ hwf2 hs2 hinv2 ?_ a ha
        intro b hb
        by_cases hbo : b = op.output
        · subst hbo
          simp only [update, if_pos rfl, if_true]
          have h1 := hmem.1
          have h2 := hmem.2
          linarith
        · simp only [update, if_neg hbo]
          apply hagree
          simp only [annotate, liveBefore]
          rw [if_pos hoL, if_pos hconst]
          exact Finset.mem_erase.mpr ⟨hbo, hb⟩
      · intro a ha
        rw [if_pos hoL, if_neg hconst]
        have hmapeq : op.inputs.map w = op.inputs.map v := by
          apply List.map_congr_left
          intro b hb
          apply hagree
          simp only [annotate, liveBefore]
          rw [if_pos hoL, if_neg hconst]
          exact Finset.mem_union_right _ (List.mem_toFinset.mpr hb)
        rw [hmapeq]
        refine ih _ _ _ _ hwf2 hs2 hinv2 ?_ a ha
        intro b hb
        by_cases hbo : b = op.output
        · subst hbo
          simp only [update, if_pos rfl, if_true]
        · simp only [update, if_neg hbo]
          apply hagree
          simp only [annotate, liveBefore]
          rw [if_pos hoL, if_neg hconst]
          exact Finset.mem_union_left _ (Finset.mem_erase.mpr ⟨hbo, hb⟩)
    · intro a ha
      rw [if_neg hoL]
      refine ih _ _ _ _ hwf2 hs2 hinv2 ?_ a ha
      intro b hb
      have hbo : b ≠ op.output := fun hcontra => hoL (hcontra ▸ hb)
      simp only [update, if_neg hbo]
      apply hagree
      simp only [annotate, liveBefore]
      rw [if_neg hoL]
      exact hb

end GraphModel

end VoxelGraphRuntime

namespace VoxelGraphRuntime

namespace GraphModel

/-- C2: execution-map equivalence — for every position inside a
previously analyzed box, a well-formed compiled graph whose registered
range routines are sound over-approximations produces the same value
through `generate_single` whether the optimized execution map built by
`generate_optimized_execution_map` is enabled or disabled (exactly, in
the rational model of float arithmetic). -/
theorem generate_single_mapped_eq (p : Prog) (bmin bmax : Vector3i) (pos : Vector3)
    (hwf : wfProg p) (hs : ∀ op ∈ p.ops, OpSound op) (hpos : inBox pos bmin bmax) :
    generate_single_mapped p bmin bmax pos = generate_single p pos :=
  runMapped_eq_runOps p.ops (initVals p pos) (initVals p pos) (initRanges p bmin bmax)
    {p.x_input_address, p.y_input_address, p.z_input_address} {p.sdf_output_address}
    hwf.1 hs (initVals_mem_initRanges p bmin bmax pos hpos) (fun _ _ => rfl)
    p.sdf_output_address (Finset.mem_singleton_self _)

theorem generate_single_mapped_eq_witness :
    wfProg demoProg ∧
    inBox { x := 1, y := 2, z := 3 } { x := 1, y := 2, z := 3 } { x := 1, y := 2, z := 3 } ∧
    generate_single_mapped demoProg { x := 1, y := 2, z := 3 } { x := 1, y := 2, z := 3 }
        { x := 1, y := 2, z := 3 } =
      generate_single demoProg { x := 1, y := 2, z := 3 } :=
  ⟨by decide, by decide,
    generate_single_mapped_eq demoProg { x := 1, y := 2, z := 3 } { x := 1, y := 2, z := 3 }
      { x := 1, y := 2, z := 3 } (by decide) demoProg_sound (by decide)⟩

end GraphModel

end VoxelGraphRuntime
